import Mathlib

/-!
A verification development for the Emacs Lisp documentation domain
(`doc/eldomain.py` of the flycheck repository): a Sphinx extension that
registers directives and cross-reference roles for Emacs Lisp symbols,
keeps a registry mapping symbol names to scoped documentation locations,
and resolves cross references against that registry.

The Python code is shallowly embedded: dictionaries become association
lists (first-match lookup, in-place replacing insert, matching CPython
dict semantics on duplicate-free key lists), raised exceptions become
`Except.error` values carrying the exception name, and emitted warnings
become explicit `Option String` components of the result.
-/

/-- Association-list lookup: the value stored for key `k`, Python `d[k]`
succeeding / `k in d` being true. -/
def alistLookup {α : Type} (k : String) : List (String × α) → Option α
  | [] => none
  | (k', v) :: rest => if k = k' then some v else alistLookup k rest

/-- Association-list insert-or-replace: Python `d[k] = v`. -/
def alistInsert {α : Type} (k : String) (v : α) : List (String × α) → List (String × α)
  | [] => [(k, v)]
  | (k', v') :: rest =>
      if k = k' then (k, v) :: rest else (k', v') :: alistInsert k v rest

/-- A registry value: `(docname, objtype)`, the declaring document and the
object type the symbol was documented with. -/
abbrev Entry := String × String

/-- The per-symbol scope map: scope name to entry, Python
`data['symbols'][name]`. -/
abbrev ScopeMap := List (String × Entry)

/-- The whole registry, Python `data['symbols']`:
fullname -> scope -> (docname, objtype). -/
abbrev SymbolTable := List (String × ScopeMap)

/-- Lookup of the entry registered for `(name, scope)`. -/
def lookupSym (table : SymbolTable) (name scope : String) : Option Entry :=
  match alistLookup name table with
  | none => none
  | some scopes => alistLookup scope scopes

/-- `make_target(scope, name)` from eldomain.py: the target anchor string
`'el.{0}.{1}'.format(scope, name)`. -/
def make_target (scope name : String) : String :=
  "el." ++ scope ++ "." ++ name

/-- The closed scope enum used throughout the domain: every entry of the
`object_types` table carries one of these four scope strings. -/
def scopeEnum : List String := ["function", "variable", "face", "struct"]

/-- The kind -> scope table `EmacsLispDomain.object_types`, restricted to the
`scope` attribute of each `ObjType`.  Note that `symbol` is a role of the
domain but not a key of this table. -/
def object_types : List (String × String) :=
  [("function", "function"),
   ("macro", "function"),
   ("command", "function"),
   ("variable", "variable"),
   ("option", "variable"),
   ("hook", "variable"),
   ("face", "face"),
   ("cl-struct", "struct"),
   ("cl-slot", "function")]

/-- The fixed disambiguation priority order of `resolve_xref`:
`['function', 'variable', 'face', 'struct']`. -/
def scopePriority : List String := ["function", "variable", "face", "struct"]

/-- The observable outcome of a `resolve_xref` call that did not raise:
the warning passed to `env.warn` (if any) and the reference node data
`(docname, target id)` returned via `make_refnode`, `none` standing for the
`return None` of an unresolved reference. -/
structure ResolveOk where
  warning : Option String
  refnode : Option (String × String)
  deriving Repr, DecidableEq

/-- The ambiguity warning text of `resolve_xref`:
`'Ambiguous reference to {0}, in scopes {1}, using {2}'`. -/
def ambiguousMessage (target : String) (scopeKeys : List String)
    (scope : String) : String :=
  "Ambiguous reference to " ++ target ++ ", in scopes " ++
    String.intercalate ", " scopeKeys ++ ", using " ++ scope

/-- The tail of `resolve_xref` after the scope has been chosen:
`if scope not in scopes: return None` followed by
`docname, _ = scopes[scope]; return make_refnode(...)`. -/
def resolveFinish (target : String) (scopes : ScopeMap) (scope : String)
    (warning : Option String) : Except String ResolveOk :=
  match alistLookup scope scopes with
  | none => .ok ⟨warning, none⟩
  | some (docname, _) => .ok ⟨warning, some (docname, make_target scope target)⟩

/-- `EmacsLispDomain.resolve_xref`.  The first line
`scopes = self.data['symbols'][target]` is an unguarded dict subscript, so a
target with no registry entry raises `KeyError`; likewise the `else` branch
subscripts `self.object_types[objtype]`.  Exceptions are modelled as
`Except.error` values naming the Python exception. -/
def resolve_xref (table : SymbolTable) (objtype target : String) :
    Except String ResolveOk :=
  match alistLookup target table with
  | none => .error ("KeyError: " ++ target)
  | some scopes =>
    if objtype = "symbol" ∧ scopes.length > 1 then
      match scopePriority.find? (fun s => (alistLookup s scopes).isSome) with
      | none => .error ("ValueError: Unknown scopes: " ++
          String.intercalate ", " (scopes.map Prod.fst))
      | some scope =>
          resolveFinish target scopes scope
            (some (ambiguousMessage target (scopes.map Prod.fst) scope))
    else
      match alistLookup objtype object_types with
      | none => .error ("KeyError: " ++ objtype)
      | some scope => resolveFinish target scopes scope none

/-- The outcome of `EmacsLispSymbol.add_target_and_index` on the registry:
the updated symbol table and the duplicate-description warning, if one was
reported. -/
structure AddOutcome where
  table : SymbolTable
  warning : Option String
  deriving Repr

/-- The duplicate warning text of `add_target_and_index`:
`'duplicate object description of %s, other instance in <path>'`, with
`doc2path` the host environment's docname-to-path translation. -/
def duplicateMessage (doc2path : String → String) (name prior : String) : String :=
  "duplicate object description of " ++ name ++ ", other instance in " ++
    doc2path prior

/-- `EmacsLispSymbol.add_target_and_index`, restricted to its effect on the
registry `self.env.domaindata['el']['symbols']` and the reporter.  When the
target name is not already among the current document's ids, the symbol is
registered under its scope via `setdefault` plus assignment; if that
(name, scope) pair already holds an entry, a duplicate warning naming the
prior entry's document is reported first, and the new entry overwrites the
old one. -/
def add_target_and_index (doc2path : String → String) (documentIds : List String)
    (scope objtype name docname : String) (table : SymbolTable) : AddOutcome :=
  let targetname := make_target scope name
  if targetname ∈ documentIds then
    ⟨table, none⟩
  else
    let symbol_scopes := (alistLookup name table).getD []
    let warning :=
      match alistLookup scope symbol_scopes with
      | some (prior, _) => some (duplicateMessage doc2path name prior)
      | none => none
    ⟨alistInsert name (alistInsert scope (docname, objtype) symbol_scopes) table,
     warning⟩

/-- `EmacsLispDomain.clear_doc`: deletes every (symbol, scope) entry whose
declaring document is `docname`.  As in the Python code, a symbol keeps its
(possibly emptied) scope dict. -/
def clear_doc (docname : String) (table : SymbolTable) : SymbolTable :=
  table.map (fun p => (p.1, p.2.filter (fun q => !(q.2.1 == docname))))

/-- Python `target.lstrip('~')`: drops every leading tilde character. -/
def lstripTilde (s : String) : String :=
  ⟨s.data.dropWhile (fun c => c = '~')⟩

/-- Python `target.startswith('~')`. -/
def startsWithTilde (s : String) : Bool :=
  match s.data with
  | [] => false
  | c :: _ => c = '~'

/-- Python `target.split(' ', 1)`: split at the first space only; the
second component is `none` when the string holds no space. -/
def splitFirstSpace (s : String) : String × Option String :=
  go [] s.data
where
  go (acc : List Char) : List Char → String × Option String
    | [] => (⟨acc.reverse⟩, none)
    | c :: rest =>
        if c = ' ' then (⟨acc.reverse⟩, some ⟨rest⟩) else go (c :: acc) rest

/-- `EmacsLispSlotXRefRole.process_link`.  The two-part branch executes
`target = parts.join('-')`, but a Python list has no `join` attribute, so
every explicit "structure slot" pair reference raises `AttributeError`
before the intended qualification and title adjustment can run; in the
bare branch the target is qualified against the ambient struct when one is
in effect (Python truthiness: a missing or empty struct is falsy) and is
passed through unchanged otherwise. -/
def process_link (current_struct : Option String) (has_explicit_title : Bool)
    (title target : String) : Except String (String × String) :=
  let omit_struct := startsWithTilde target
  let target' := lstripTilde target
  match (splitFirstSpace target').2 with
  | some _ => .error "AttributeError: list object has no attribute join"
  | none =>
      match current_struct with
      | some cs =>
          if cs = "" then .ok (title, target')
          else .ok (title, cs ++ "-" ++ target')
      | none => .ok (title, target')

/-- Python `sig.split()` of a signature: split on whitespace, dropping
empty pieces. -/
def pySplitWhitespace (s : String) : List String :=
  ((s.data.splitOn ' ').filter (fun l => l ≠ [])).map (fun l => ⟨l⟩)

/-- The name computed by `EmacsLispSymbol.handle_signature`:
`parts = sig.split(); name = parts[0]`; an empty signature raises
`IndexError` at the subscript. -/
def symbolSignatureName (sig : String) : Except String String :=
  match pySplitWhitespace sig with
  | [] => .error "IndexError: list index out of range"
  | name :: _ => .ok name

/-- `EmacsLispCLSlot.handle_signature`: computes the plain name via the
parent class, then prepends the ambient struct stored in
`env.temp_data['el:cl-struct']`; a missing (or empty, hence falsy) ambient
struct raises `ValueError('Missing containing structure')`. -/
def clSlotHandleSignature (current_struct : Option String) (sig : String) :
    Except String String :=
  match symbolSignatureName sig with
  | .error e => .error e
  | .ok name =>
      match current_struct with
      | some s =>
          if s = "" then .error "ValueError: Missing containing structure"
          else .ok (s ++ "-" ++ name)
      | none => .error "ValueError: Missing containing structure"

/-- If every key of an association list differs from `k`, the lookup of `k`
fails. -/
theorem alistLookup_eq_none_of_forall_ne {α : Type} (k : String)
    (l : List (String × α)) (h : ∀ p ∈ l, k ≠ p.1) : alistLookup k l = none := by
  induction l with
  | nil => rfl
  | cons hd tl ih =>
      simp only [alistLookup]
      rw [if_neg (h hd (by simp))]
      exact ih fun p hp => h p (by simp [hp])

theorem data_append (s t : String) : (s ++ t).data = s.data ++ t.data := rfl

theorem string_data_ext {s t : String} (h : s.data = t.data) : s = t := by
  cases s
  cases t
  exact congrArg String.mk h

/-- C6: `make_target` is injective over (scope, name) pairs when the scopes
are drawn from the closed scope enum: two distinct pairs never produce the
same target identifier string. -/
theorem make_target_injective (s1 s2 n1 n2 : String)
    (h1 : s1 ∈ scopeEnum) (h2 : s2 ∈ scopeEnum)
    (heq : make_target s1 n1 = make_target s2 n2) : s1 = s2 ∧ n1 = n2 := by
  have hd := congrArg String.data heq
  simp only [make_target, data_append] at hd
  fin_cases h1 <;> fin_cases h2 <;> simp at hd <;>
    exact ⟨rfl, string_data_ext hd⟩

/-- C6 witness: two concrete distinct pairs produce distinct identifiers,
recovered by applying injectivity contrapositively at concrete inputs. -/
theorem make_target_injective_witness :
    "function" ∈ scopeEnum ∧ "variable" ∈ scopeEnum ∧
      make_target "function" "x" ≠ make_target "variable" "x" := by
  refine ⟨by decide, by decide, fun h => ?_⟩
  have := make_target_injective "function" "variable" "x" "x"
    (by decide) (by decide) h
  simp at this

/-- C1: a cross reference to a target that was never registered under any
scope does not return the "unresolved" result: the unguarded dict subscript
`self.data['symbols'][target]` raises `KeyError` for every requested kind,
concrete or generic, contradicting the spec's "return nothing". -/
theorem resolve_xref_unregistered_raises (objtype target : String) :
    resolve_xref [] objtype target = .error ("KeyError: " ++ target) := rfl

/-- C10: for a target registered under exactly one scope, a generic
`symbol` resolve falls into the `else` branch, which subscripts
`self.object_types['symbol']`; `symbol` is a role but not an object type,
so the call raises `KeyError`. -/
theorem resolve_symbol_single_scope_keyerror (table : SymbolTable)
    (target scope : String) (e : Entry)
    (h : alistLookup target table = some [(scope, e)]) :
    resolve_xref table "symbol" target = .error "KeyError: symbol" := by
  unfold resolve_xref
  rw [h]
  simp [object_types, alistLookup]

/-- C10 witness: a registry holding `foo` only under variable scope makes
the generic resolve raise `KeyError`. -/
theorem resolve_symbol_single_scope_keyerror_witness :
    alistLookup "foo" [("foo", [("variable", (("doc1" : String), ("variable" : String)))])]
        = some [("variable", ("doc1", "variable"))] ∧
    resolve_xref [("foo", [("variable", ("doc1", "variable"))])] "symbol" "foo"
        = .error "KeyError: symbol" :=
  ⟨rfl, resolve_symbol_single_scope_keyerror _ "foo" "variable" ("doc1", "variable") rfl⟩

/-- C9: a name registered only under variable scope does not satisfy a
concrete `function`-kind resolve: the requested kind's scope is `function`,
`function` is not among the symbol's scopes, and the call returns `None`
(no warning, no reference node). -/
theorem resolve_concrete_kind_scope_mismatch (table : SymbolTable)
    (target : String) (scopes : ScopeMap)
    (h : alistLookup target table = some scopes)
    (hvar : ∀ p ∈ scopes, p.1 = "variable") :
    resolve_xref table "function" target = .ok ⟨none, none⟩ := by
  have hnone : alistLookup "function" scopes = none :=
    alistLookup_eq_none_of_forall_ne _ _ (fun p hp => by simp [hvar p hp])
  unfold resolve_xref
  rw [h]
  simp [object_types, alistLookup, resolveFinish, hnone]

/-- C9 witness: `foo` registered only as a variable; a `function`-kind
resolve returns the "unresolved" outcome. -/
theorem resolve_concrete_kind_scope_mismatch_witness :
    (∀ p ∈ [("variable", (("doc1" : String), ("variable" : String)))], p.1 = "variable") ∧
    resolve_xref [("foo", [("variable", ("doc1", "variable"))])] "function" "foo"
        = .ok ⟨none, none⟩ :=
  ⟨by decide, resolve_concrete_kind_scope_mismatch _ "foo" _ rfl (by decide)⟩

/-- C2: for a name registered under more than one scope, a generic `symbol`
resolve chooses the first of the symbol's actual scopes in the fixed
priority order `function, variable, face, struct` (expressed by `find?`
over `scopePriority`), returns that scope's entry, and emits the
disambiguation warning naming the chosen scope and the alternatives. -/
theorem resolve_symbol_ambiguous_priority (table : SymbolTable)
    (target scope docname objt : String) (scopes : ScopeMap)
    (h : alistLookup target table = some scopes)
    (hlen : 1 < scopes.length)
    (hfirst : scopePriority.find? (fun s => (alistLookup s scopes).isSome) = some scope)
    (hentry : alistLookup scope scopes = some (docname, objt)) :
    resolve_xref table "symbol" target =
      .ok ⟨some (ambiguousMessage target (scopes.map Prod.fst) scope),
           some (docname, make_target scope target)⟩ := by
  simp only [resolve_xref, h]
  rw [if_pos ⟨trivial, hlen⟩, hfirst]
  simp only [resolveFinish, hentry]

/-- C2 witness: `foo` under both function and variable scope resolves
generically to the function-scope entry with the ambiguity warning listing
both scopes. -/
theorem resolve_symbol_ambiguous_priority_witness :
    1 < ([("function", (("docA" : String), ("function" : String))),
          ("variable", ("docB", "variable"))] : ScopeMap).length ∧
    resolve_xref
        [("foo", [("function", ("docA", "function")),
                  ("variable", ("docB", "variable"))])] "symbol" "foo" =
      .ok ⟨some (ambiguousMessage "foo" ["function", "variable"] "function"),
           some ("docA", make_target "function" "foo")⟩ :=
  ⟨by decide,
   resolve_symbol_ambiguous_priority
     [("foo", [("function", ("docA", "function")), ("variable", ("docB", "variable"))])]
     "foo" "function" "docA" "function"
     [("function", ("docA", "function")), ("variable", ("docB", "variable"))]
     rfl (by decide) rfl rfl⟩

/-- C8 counterexample: a scope set that contains the out-of-enum scope
`bogus` alongside `function` does NOT make the generic resolve raise; the
code silently picks `function` and warns, refuting the claim that any
unknown scope in the set is fatal. -/
theorem resolve_unknown_scope_present_no_raise :
    ("bogus" ∉ scopeEnum) ∧
    resolve_xref [("x", [("function", ("d1", "function")),
                         ("bogus", ("d2", "weird"))])] "symbol" "x" =
      .ok ⟨some (ambiguousMessage "x" ["function", "bogus"] "function"),
           some ("d1", make_target "function" "x")⟩ := by
  exact ⟨by decide, rfl⟩

/-- C8 amended: the generic resolve raises `ValueError` only when NONE of
the symbol's scopes belongs to the closed priority enum (the `next(...)`
over the priority list yields no scope at all). -/
theorem resolve_all_scopes_unknown_raises (table : SymbolTable)
    (target : String) (scopes : ScopeMap)
    (h : alistLookup target table = some scopes)
    (hlen : 1 < scopes.length)
    (hnone : ∀ s ∈ scopePriority, alistLookup s scopes = none) :
    resolve_xref table "symbol" target =
      .error ("ValueError: Unknown scopes: " ++
        String.intercalate ", " (scopes.map Prod.fst)) := by
  have hfind : scopePriority.find? (fun s => (alistLookup s scopes).isSome) = none := by
    rw [List.find?_eq_none]
    intro s hs
    simp [hnone s hs]
  simp only [resolve_xref, h]
  rw [if_pos ⟨trivial, hlen⟩, hfind]

/-- C8 amended witness: a symbol whose two scopes are both outside the enum
makes the generic resolve raise `ValueError`. -/
theorem resolve_all_scopes_unknown_raises_witness :
    1 < ([("w1", (("d1" : String), ("a" : String))),
          ("w2", ("d2", "b"))] : ScopeMap).length ∧
    resolve_xref [("x", [("w1", ("d1", "a")), ("w2", ("d2", "b"))])] "symbol" "x" =
      .error ("ValueError: Unknown scopes: " ++ String.intercalate ", " ["w1", "w2"]) :=
  ⟨by decide,
   resolve_all_scopes_unknown_raises
     [("x", [("w1", ("d1", "a")), ("w2", ("d2", "b"))])] "x"
     [("w1", ("d1", "a")), ("w2", ("d2", "b"))]
     rfl (by decide) (by decide)⟩

theorem alistLookup_insert_self {α : Type} (k : String) (v : α)
    (l : List (String × α)) : alistLookup k (alistInsert k v l) = some v := by
  induction l with
  | nil => simp [alistInsert, alistLookup]
  | cons hd tl ih =>
      obtain ⟨k', v'⟩ := hd
      by_cases hk : k = k'
      · simp [alistInsert, hk, alistLookup]
      · simp [alistInsert, hk, alistLookup, ih]

theorem alistLookup_filter_none {α : Type} (k : String) (p : String × α → Bool)
    (l : List (String × α)) (h : alistLookup k l = none) :
    alistLookup k (l.filter p) = none := by
  induction l with
  | nil => rfl
  | cons hd tl ih =>
      obtain ⟨k', v⟩ := hd
      simp only [alistLookup] at h
      by_cases hk : k = k'
      · rw [if_pos hk] at h
        exact absurd h (by simp)
      · rw [if_neg hk] at h
        cases hp : p (k', v) with
        | true => simp [List.filter, hp, alistLookup, hk, ih h]
        | false => simp [List.filter, hp, ih h]

theorem alistLookup_filter_doc (k doc : String) (l : ScopeMap)
    (hnd : (l.map Prod.fst).Nodup) :
    alistLookup k (l.filter (fun q => !(q.2.1 == doc))) =
      (match alistLookup k l with
       | some (d, t) => if d = doc then none else some (d, t)
       | none => none) := by
  induction l with
  | nil => rfl
  | cons hd tl ih =>
      obtain ⟨k', d, t⟩ := hd
      simp only [List.map_cons, List.nodup_cons] at hnd
      by_cases hk : k = k'
      · subst hk
        have hnone : alistLookup k tl = none :=
          alistLookup_eq_none_of_forall_ne _ _
            (fun p hp he => hnd.1 (by rw [he]; exact List.mem_map_of_mem Prod.fst hp))
        by_cases hdoc : d = doc
        · simp [List.filter, hdoc, alistLookup,
            alistLookup_filter_none _ _ _ hnone]
        · have hb : (d == doc) = false := by simp [hdoc]
          simp [List.filter, hb, alistLookup, hdoc]
      · cases hp : (d == doc) with
        | true => simp [List.filter, hp, alistLookup, hk, ih hnd.2]
        | false => simp [List.filter, hp, alistLookup, hk, ih hnd.2]

/-- C5: purging a document removes exactly the (name, scope) entries whose
declaring document is the purged one: afterwards a lookup returns nothing
when the original entry was declared by that document, and returns the
original entry unchanged otherwise. -/
theorem clear_doc_lookup (table : SymbolTable) (doc name scope : String)
    (hwf : ∀ p ∈ table, (p.2.map Prod.fst).Nodup) :
    lookupSym (clear_doc doc table) name scope =
      (match lookupSym table name scope with
       | some (d, t) => if d = doc then none else some (d, t)
       | none => none) := by
  induction table with
  | nil => rfl
  | cons hd tl ih =>
      obtain ⟨n, scopes⟩ := hd
      by_cases hn : name = n
      · subst hn
        simp only [clear_doc, List.map_cons, lookupSym, alistLookup, if_pos rfl,
          if_true]
        exact alistLookup_filter_doc scope doc scopes
          (hwf (name, scopes) (List.mem_cons_self _ _))
      · have ih' := ih (fun p hp => hwf p (by simp [hp]))
        simp only [clear_doc, List.map_cons, lookupSym, alistLookup, if_neg hn] at ih' ⊢
        exact ih'

/-- C5 witness: with `foo` registered as a function by document A and as a
variable by document B, and `bar` registered as a function by A, purging A
removes exactly the two A-owned entries and keeps B's variable entry. -/
theorem clear_doc_lookup_witness :
    lookupSym (clear_doc "A"
        [("foo", [("function", ("A", "function")), ("variable", ("B", "variable"))]),
         ("bar", [("function", ("A", "function"))])]) "foo" "function" = none ∧
    lookupSym (clear_doc "A"
        [("foo", [("function", ("A", "function")), ("variable", ("B", "variable"))]),
         ("bar", [("function", ("A", "function"))])]) "foo" "variable"
      = some ("B", "variable") := by
  have h1 := clear_doc_lookup
    [("foo", [("function", ("A", "function")), ("variable", ("B", "variable"))]),
     ("bar", [("function", ("A", "function"))])] "A" "foo" "function" (by decide)
  have h2 := clear_doc_lookup
    [("foo", [("function", ("A", "function")), ("variable", ("B", "variable"))]),
     ("bar", [("function", ("A", "function"))])] "A" "foo" "variable" (by decide)
  refine ⟨?_, ?_⟩
  · rw [h1]; rfl
  · rw [h2]; rfl

/-- C4: registering an already-registered (name, scope) pair from a second
document reports the duplicate warning naming the first document, and a
subsequent lookup of the pair returns the second document's entry: the
conflict is surfaced, processing continues, and the last registration
wins. -/
theorem add_duplicate_warns_and_overwrites (doc2path : String → String)
    (documentIds : List String) (table : SymbolTable)
    (name scope docA objA docB objB : String)
    (hprev : lookupSym table name scope = some (docA, objA))
    (hdiff : docA ≠ docB)
    (hids : make_target scope name ∉ documentIds) :
    (add_target_and_index doc2path documentIds scope objB name docB table).warning
        = some (duplicateMessage doc2path name docA) ∧
    lookupSym (add_target_and_index doc2path documentIds scope objB name docB
        table).table name scope = some (docB, objB) := by
  cases hh : alistLookup name table with
  | none => simp [lookupSym, hh] at hprev
  | some scopes =>
      have hscope : alistLookup scope scopes = some (docA, objA) := by
        simpa [lookupSym, hh] using hprev
      constructor
      · simp only [add_target_and_index, if_neg hids, hh, Option.getD_some, hscope]
      · simp only [add_target_and_index, if_neg hids, hh, Option.getD_some,
          lookupSym, alistLookup_insert_self]

/-- C4 witness: document B re-registers (`foo`, function-scope) after
document A; the returned warning names A's document and the subsequent
lookup returns B's entry. -/
theorem add_duplicate_warns_and_overwrites_witness :
    lookupSym [("foo", [("function", ("docA", "function"))])] "foo" "function"
        = some ("docA", "function") ∧
    ("docA" : String) ≠ "docB" ∧
    make_target "function" "foo" ∉ ([] : List String) ∧
    ((add_target_and_index (fun d => d) [] "function" "function" "foo" "docB"
        [("foo", [("function", ("docA", "function"))])]).warning
        = some (duplicateMessage (fun d => d) "foo" "docA") ∧
     lookupSym (add_target_and_index (fun d => d) [] "function" "function" "foo"
        "docB" [("foo", [("function", ("docA", "function"))])]).table
        "foo" "function" = some ("docB", "function")) :=
  ⟨rfl, by decide, by decide,
   add_duplicate_warns_and_overwrites (fun d => d) []
     [("foo", [("function", ("docA", "function"))])]
     "foo" "function" "docA" "function" "docB" "function"
     rfl (by decide) (by decide)⟩

/-- C3: an explicit "structure slot" pair reference never reaches the
qualification and title logic: the code executes `parts.join('-')` on a
Python list, which has no `join` attribute, so the reference raises
`AttributeError` instead of resolving to the qualified `structure-slot`
target (here: `"rectangle width"` inside struct context `"square"`). -/
theorem process_link_pair_form_raises :
    process_link (some "square") false "rectangle width" "rectangle width" =
      .error "AttributeError: list object has no attribute join" := rfl

/-- C7 counterexample: a bare slot cross reference processed with no
ambient struct context does NOT fail; it is silently passed through with
the unqualified target, refuting the claim that every such reference is a
clear error. -/
theorem process_link_bare_no_struct_passes_through :
    process_link none false "width" "width" = .ok ("width", "width") := rfl

/-- C7 amended: with no ambient struct context in effect, a
slot-documentation directive occurrence fails with
`ValueError('Missing containing structure')`, while a bare slot cross
reference is passed through with its tilde-stripped target unqualified and
unchanged (no error, no fallback qualification). -/
theorem missing_struct_context_behaviour (sig title target : String)
    (het : Bool)
    (hsig : pySplitWhitespace sig ≠ [])
    (hbare : (splitFirstSpace (lstripTilde target)).2 = none) :
    clSlotHandleSignature none sig
        = .error "ValueError: Missing containing structure" ∧
    process_link none het title target = .ok (title, lstripTilde target) := by
  constructor
  · cases hh : pySplitWhitespace sig with
    | nil => exact absurd hh hsig
    | cons a l => simp [clSlotHandleSignature, symbolSignatureName, hh]
  · simp only [process_link, hbare]

/-- C7 amended witness: signature `width` with no struct context raises,
and the bare reference `x` with no struct context passes through
unchanged. -/
theorem missing_struct_context_behaviour_witness :
    clSlotHandleSignature none "width"
        = .error "ValueError: Missing containing structure" ∧
    process_link none false "slot title" "x" = .ok ("slot title", lstripTilde "x") :=
  missing_struct_context_behaviour "width" "slot title" "x" false
    (by decide) (by decide)
